import Mathlib

/-
  Verification of the transactional core of the Colts front-office
  roster/contract manager (src/app.py).

  The four SQLite tables (people, units, positions, contracts) are embedded
  as lists of records inside a `DB` structure.  Each Flask route's `work`
  closure (run through `execute_in_transaction`) is embedded as a function
  `DB → Except String DB`: raising an exception becomes `Except.error`, and
  the orchestrator's commit/rollback becomes `executeInTransaction` below.
  SQLite REAL columns are embedded as ℚ, dates as (year, month, day)
  triples compared lexicographically (Python's `date` ordering on the valid
  dates produced by `strptime`).
-/

/-- Row of the `people` table: `person_id INTEGER PRIMARY KEY, name TEXT`. -/
structure Person where
  person_id : Nat
  name : String
deriving DecidableEq, Repr

/-- Row of the `units` table: `unit_id INTEGER PRIMARY KEY AUTOINCREMENT, name TEXT UNIQUE`. -/
structure Unit' where
  unit_id : Nat
  name : String
deriving DecidableEq, Repr

/-- Row of the `positions` table. -/
structure Position where
  position_id : Nat
  code : String
  description : String
  unit_id : Nat
deriving DecidableEq, Repr

/-- Calendar date as stored by `datetime.strptime(_, "%Y-%m-%d").date()`. -/
structure Date where
  year : Int
  month : Int
  day : Int
deriving DecidableEq, Repr

/-- Python `date` ordering (lexicographic on year, month, day). -/
def Date.lt (a b : Date) : Bool :=
  a.year < b.year ||
    (a.year == b.year &&
      (a.month < b.month || (a.month == b.month && a.day < b.day)))

/-- Python `date` ordering, non-strict. -/
def Date.le (a b : Date) : Bool :=
  a.year < b.year ||
    (a.year == b.year &&
      (a.month < b.month || (a.month == b.month && a.day ≤ b.day)))

/-- Row of the `contracts` table. -/
structure Contract where
  contract_id : Nat
  person_id : Nat
  position_id : Nat
  unit_id : Nat
  start_date : Date
  end_date : Date
  years : Int
  salary_millions : ℚ
  cap_hit_millions : ℚ
deriving DecidableEq, Repr

/-- State of the SQLite store.  `next_contract_id` models the AUTOINCREMENT
counter of the `contracts` table. -/
structure DB where
  people : List Person
  units : List Unit'
  positions : List Position
  contracts : List Contract
  next_contract_id : Nat
deriving DecidableEq, Repr

/-- Empty store. -/
def emptyDB : DB :=
  { people := [], units := [], positions := [], contracts := [], next_contract_id := 1 }

/-- Transaction orchestrator `execute_in_transaction` (src/app.py:195-223):
runs the unit of work; on normal return the produced state is committed, on
an exception the pre-transaction state is kept (ROLLBACK) and the exception
is re-raised (returned in the second component). -/
def executeInTransaction (work : DB → Except String DB) (db : DB) : DB × Option String :=
  match work db with
  | Except.ok db2 => (db2, none)
  | Except.error e => (db, some e)

/-- Committed store state after running a unit of work through the
orchestrator. -/
def runTxn (work : DB → Except String DB) (db : DB) : DB :=
  (executeInTransaction work db).1

/-- Sequential execution of the individual statements of a unit of work on
the live connection; the first failing statement aborts the rest. -/
def runSteps : List (DB → Except String DB) → DB → Except String DB
  | [], db => Except.ok db
  | s :: rest, db =>
    match s db with
    | Except.ok db2 => runSteps rest db2
    | Except.error e => Except.error e

/-- Identifier scan of `create_contract.work` (src/app.py:998-1005): walk the
ascending-sorted person identifiers with candidate `next_id`, incrementing on
a hit, stopping at the first identifier past the candidate. -/
def allocScan : List Nat → Nat → Nat
  | [], next_id => next_id
  | pid :: rest, next_id =>
    if pid = next_id then allocScan rest (next_id + 1)
    else if pid > next_id then next_id
    else allocScan rest next_id

/-- Result of `SELECT person_id FROM people ORDER BY person_id`. -/
def sortedPersonIds (db : DB) : List Nat :=
  (db.people.map Person.person_id).insertionSort (· ≤ ·)

/-- Lowest unused positive person identifier, as computed inside
`create_contract.work`. -/
def nextFreePersonId (db : DB) : Nat :=
  allocScan (sortedPersonIds db) 1

/-- Helper `_position_unit_matches` (src/app.py:955-966): look up the
Position row and compare its stored unit with the submitted one; `false`
when the Position does not exist. -/
def positionUnitMatches (db : DB) (position_id unit_id : Nat) : Bool :=
  match db.positions.find? (fun p => p.position_id == position_id) with
  | some row => row.unit_id == unit_id
  | none => false

/-- Date/years portion of `_validate_contract_payload` (src/app.py:924-939):
reject when the end date precedes the start date, then require
`years == max(1, end.year - start.year)`; `true` means the payload passes
these business rules. -/
def validDatesYears (start_dt end_dt : Date) (years : Int) : Bool :=
  if Date.lt end_dt start_dt then false
  else years == max 1 (end_dt.year - start_dt.year)

/-- Unit of work of `create_contract` (src/app.py:996-1033): allocate the
lowest free person identifier, insert the new Person row, enforce the
position/unit pairing rule (raising rolls the person insert back), then
insert the Contract row. -/
def createContractWork (person_name : String) (position_id unit_id : Nat)
    (start_date end_date : Date) (years : Int) (salary_millions cap_hit_millions : ℚ)
    (db : DB) : Except String DB :=
  let next_id := nextFreePersonId db
  let db1 := { db with people := db.people ++ [⟨next_id, person_name⟩] }
  if positionUnitMatches db1 position_id unit_id then
    Except.ok { db1 with
      contracts := db1.contracts ++
        [⟨db1.next_contract_id, next_id, position_id, unit_id,
          start_date, end_date, years, salary_millions, cap_hit_millions⟩],
      next_contract_id := db1.next_contract_id + 1 }
  else
    Except.error "Selected position does not belong to selected unit."

/-- Unit of work of `edit_contract` (src/app.py:1086-1108): enforce the
position/unit pairing rule, then overwrite every column of the Contract row
with the given contract_id. -/
def editContractWork (contract_id person_id position_id unit_id : Nat)
    (start_date end_date : Date) (years : Int) (salary_millions cap_hit_millions : ℚ)
    (db : DB) : Except String DB :=
  if positionUnitMatches db position_id unit_id then
    Except.ok { db with
      contracts := db.contracts.map (fun c =>
        if c.contract_id == contract_id then
          ⟨c.contract_id, person_id, position_id, unit_id,
            start_date, end_date, years, salary_millions, cap_hit_millions⟩
        else c) }
  else
    Except.error "Selected position does not belong to selected unit."

/-- Unit of work of `edit_position` (src/app.py:1303-1312): update the
Position row, then keep `contracts.unit_id` in sync for every Contract
referencing that Position. -/
def editPositionWork (position_id : Nat) (code description : String) (unit_id : Nat)
    (db : DB) : Except String DB :=
  Except.ok { db with
    positions := db.positions.map (fun p =>
      if p.position_id == position_id then
        ⟨p.position_id, code, description, unit_id⟩
      else p),
    contracts := db.contracts.map (fun c =>
      if c.position_id == position_id then { c with unit_id := unit_id } else c) }

/-- Unit of work of `delete_contract` (src/app.py:1133-1150): look up the
Contract's person, return early when the Contract does not exist, delete the
Contract row, then delete the Person when no Contract references them
anymore. -/
def deleteContractWork (contract_id : Nat) (db : DB) : Except String DB :=
  match db.contracts.find? (fun c => c.contract_id == contract_id) with
  | none => Except.ok db
  | some row =>
    let contracts2 := db.contracts.filter (fun c => !(c.contract_id == contract_id))
    let remaining := (contracts2.filter (fun c => c.person_id == row.person_id)).length
    let people2 :=
      if remaining = 0 then db.people.filter (fun p => !(p.person_id == row.person_id))
      else db.people
    Except.ok { db with contracts := contracts2, people := people2 }

/-- Orphan-cleanup loop shared by `delete_unit.work` (src/app.py:1221-1227)
and `delete_position.work` (src/app.py:1344-1350): for each affected person
identifier, count the remaining Contracts referencing it and delete the
Person row when the count is zero.  `contracts` is the contracts table after
the cascade's contract deletion (deleting people does not change it). -/
def deleteOrphanPeople (contracts : List Contract) (pids : List Nat)
    (people : List Person) : List Person :=
  pids.foldl (fun acc pid =>
    if (contracts.filter (fun c => c.person_id == pid)).length = 0 then
      acc.filter (fun p => !(p.person_id == pid))
    else acc) people

/-- Result of `SELECT DISTINCT person_id FROM contracts WHERE unit_id = ?`. -/
def affectedPersonIdsByUnit (db : DB) (unit_id : Nat) : List Nat :=
  ((db.contracts.filter (fun c => c.unit_id == unit_id)).map Contract.person_id).dedup

/-- Result of `SELECT DISTINCT person_id FROM contracts WHERE position_id = ?`. -/
def affectedPersonIdsByPosition (db : DB) (position_id : Nat) : List Nat :=
  ((db.contracts.filter (fun c => c.position_id == position_id)).map Contract.person_id).dedup

/-- Unit of work of `delete_unit` (src/app.py:1211-1230): collect affected
person identifiers, delete the unit's Contracts, garbage-collect orphaned
People, delete the unit's Positions, delete the Unit. -/
def deleteUnitWork (unit_id : Nat) (db : DB) : Except String DB :=
  let person_ids := affectedPersonIdsByUnit db unit_id
  let contracts2 := db.contracts.filter (fun c => !(c.unit_id == unit_id))
  let people2 := deleteOrphanPeople contracts2 person_ids db.people
  Except.ok { db with
    people := people2,
    contracts := contracts2,
    positions := db.positions.filter (fun p => !(p.unit_id == unit_id)),
    units := db.units.filter (fun u => !(u.unit_id == unit_id)) }

/-- Unit of work of `delete_position` (src/app.py:1335-1352): collect
affected person identifiers, delete the position's Contracts,
garbage-collect orphaned People, delete the Position. -/
def deletePositionWork (position_id : Nat) (db : DB) : Except String DB :=
  let person_ids := affectedPersonIdsByPosition db position_id
  let contracts2 := db.contracts.filter (fun c => !(c.position_id == position_id))
  let people2 := deleteOrphanPeople contracts2 person_ids db.people
  Except.ok { db with
    people := people2,
    contracts := contracts2,
    positions := db.positions.filter (fun p => !(p.position_id == position_id)) }

/-- Bound parameter of the report queries: the filters bind ints
(identifiers) and REALs (salaries). -/
inductive FilterParam where
  | intParam (n : Int)
  | ratParam (q : ℚ)
deriving DecidableEq, Repr

/-- Optional report filters of `report` (src/app.py:1364-1367). -/
structure ReportFilters where
  unit_id : Option Int
  position_id : Option Int
  min_salary : Option ℚ
  max_salary : Option ℚ
deriving DecidableEq, Repr

/-- Dynamic WHERE-clause construction of `report` (src/app.py:1393-1416):
one static comparison fragment and one bound parameter appended per present
filter, in the fixed order unit, position, min salary, max salary. -/
def reportConditions (f : ReportFilters) : List String × List FilterParam :=
  let cp : List String × List FilterParam := ([], [])
  let cp := match f.unit_id with
    | some v => (cp.1 ++ ["c.unit_id = ?"], cp.2 ++ [FilterParam.intParam v])
    | none => cp
  let cp := match f.position_id with
    | some v => (cp.1 ++ ["c.position_id = ?"], cp.2 ++ [FilterParam.intParam v])
    | none => cp
  let cp := match f.min_salary with
    | some v => (cp.1 ++ ["c.salary_millions >= ?"], cp.2 ++ [FilterParam.ratParam v])
    | none => cp
  let cp := match f.max_salary with
    | some v => (cp.1 ++ ["c.salary_millions <= ?"], cp.2 ++ [FilterParam.ratParam v])
    | none => cp
  cp

/-- WHERE clause assembly of `report` (src/app.py:1418-1420). -/
def whereClause (f : ReportFilters) : String :=
  let conditions := (reportConditions f).1
  if conditions.isEmpty then "" else " WHERE " ++ String.intercalate " AND " conditions

/-- Row-level meaning of the four comparison fragments on a contract row:
`c.unit_id = ?`, `c.position_id = ?`, `c.salary_millions >= ?`,
`c.salary_millions <= ?`, conjoined; an absent filter constrains nothing. -/
def rowMatches (f : ReportFilters) (c : Contract) : Bool :=
  (match f.unit_id with | some v => (c.unit_id : Int) == v | none => true) &&
  (match f.position_id with | some v => (c.position_id : Int) == v | none => true) &&
  (match f.min_salary with | some v => v ≤ c.salary_millions | none => true) &&
  (match f.max_salary with | some v => c.salary_millions ≤ v | none => true)

/-- Contract rows underlying the row-listing query of `report`
(src/app.py:1422-1441): contracts INNER JOINed with people, positions and
units on their key columns, restricted by the WHERE clause. -/
def listingRows (db : DB) (f : ReportFilters) : List Contract :=
  db.contracts.filter (fun c =>
    rowMatches f c &&
    db.people.any (fun p => p.person_id == c.person_id) &&
    db.positions.any (fun q => q.position_id == c.position_id) &&
    db.units.any (fun u => u.unit_id == c.unit_id))

/-- Contract rows underlying the aggregate-statistics query of `report`
(src/app.py:1443-1454): contracts INNER JOINed with people only, restricted
by the same WHERE clause. -/
def statsSourceRows (db : DB) (f : ReportFilters) : List Contract :=
  db.contracts.filter (fun c =>
    rowMatches f c &&
    db.people.any (fun p => p.person_id == c.person_id))

/-- Result row of the aggregate-statistics query; SQLite yields COUNT 0 and
NULL aggregates on an empty row set. -/
structure Stats where
  count_contracts : Nat
  avg_salary : Option ℚ
  avg_cap_hit : Option ℚ
  total_cap_hit : Option ℚ
deriving DecidableEq, Repr

/-- SQLite semantics of `COUNT(*), AVG(c.salary_millions),
AVG(c.cap_hit_millions), SUM(c.cap_hit_millions)` over a row set. -/
def computeStats (rows : List Contract) : Stats :=
  { count_contracts := rows.length,
    avg_salary :=
      if rows.length = 0 then none
      else some ((rows.map Contract.salary_millions).sum / (rows.length : ℚ)),
    avg_cap_hit :=
      if rows.length = 0 then none
      else some ((rows.map Contract.cap_hit_millions).sum / (rows.length : ℚ)),
    total_cap_hit :=
      if rows.length = 0 then none
      else some (rows.map Contract.cap_hit_millions).sum }

/-- Statistics returned by `report` (src/app.py:1443-1457). -/
def reportStats (db : DB) (f : ReportFilters) : Stats :=
  computeStats (statsSourceRows db f)

/-- Invariant 1 of the spec as a Boolean check: every Contract whose
referenced Position row exists carries that Position's stored unit. -/
def unitInvariantB (db : DB) : Bool :=
  db.contracts.all (fun c =>
    match db.positions.find? (fun p => p.position_id == c.position_id) with
    | some p => p.unit_id == c.unit_id
    | none => true)

/-- Invariant 2 of the spec as a Boolean check: every Person row is
referenced by at least one Contract row. -/
def noOrphansB (db : DB) : Bool :=
  db.people.all (fun p => db.contracts.any (fun c => c.person_id == p.person_id))

/-- Sample store used to evaluate the theorems on concrete data. -/
def sampleDB : DB :=
  { people := [⟨1, "John Doe"⟩, ⟨2, "Sam Roe"⟩],
    units := [⟨1, "Offense"⟩, ⟨2, "Defense"⟩],
    positions := [⟨1, "QB", "Quarterback", 1⟩, ⟨2, "LB", "Linebacker", 2⟩],
    contracts :=
      [⟨1, 1, 1, 1, ⟨2024, 1, 1⟩, ⟨2025, 1, 1⟩, 1, 10, 12⟩,
       ⟨2, 2, 2, 2, ⟨2024, 1, 1⟩, ⟨2026, 1, 1⟩, 2, 5, 6⟩],
    next_contract_id := 3 }

theorem runSteps_append (xs ys : List (DB → Except String DB)) (db : DB) :
    runSteps (xs ++ ys) db =
      match runSteps xs db with
      | Except.ok mid => runSteps ys mid
      | Except.error e => Except.error e := by
  induction xs generalizing db with
  | nil => rfl
  | cons s rest ih =>
    simp only [List.cons_append, runSteps]
    cases s db with
    | ok mid => exact ih mid
    | error e => rfl

/-- C3: the transaction orchestrator commits the unit of work's statements
atomically on normal return, and on any exception it rolls back (the
committed store equals the store before the unit of work began) and
re-raises the same exception; in particular a failure after a prefix of
statements discards that prefix entirely. -/
theorem transaction_atomicity
    (good bad w1 w2 : List (DB → Except String DB)) (db dbg mid : DB) (e eb : String)
    (hgood : runSteps good db = Except.ok dbg)
    (hbad : runSteps bad db = Except.error eb)
    (hmid : runSteps w1 db = Except.ok mid) :
    executeInTransaction (runSteps good) db = (dbg, none) ∧
    executeInTransaction (runSteps bad) db = (db, some eb) ∧
    executeInTransaction (runSteps (w1 ++ (fun _ => Except.error e) :: w2)) db = (db, some e) := by
  refine ⟨?_, ?_, ?_⟩
  · simp [executeInTransaction, hgood]
  · simp [executeInTransaction, hbad]
  · have h : runSteps (w1 ++ (fun _ => Except.error e) :: w2) db = Except.error e := by
      rw [runSteps_append, hmid]
      rfl
    simp [executeInTransaction, h]

theorem transaction_atomicity_witness :
    executeInTransaction (runSteps [fun d => Except.ok { d with next_contract_id := 7 }]) sampleDB
      = ({ sampleDB with next_contract_id := 7 }, none) ∧
    executeInTransaction (runSteps [fun _ => Except.error "boom"]) sampleDB
      = (sampleDB, some "boom") ∧
    executeInTransaction
      (runSteps ([fun d => Except.ok { d with next_contract_id := 7 }] ++
        (fun _ => Except.error "late failure") :: [])) sampleDB
      = (sampleDB, some "late failure") :=
  transaction_atomicity
    [fun d => Except.ok { d with next_contract_id := 7 }]
    [fun _ => Except.error "boom"]
    [fun d => Except.ok { d with next_contract_id := 7 }] []
    sampleDB { sampleDB with next_contract_id := 7 } { sampleDB with next_contract_id := 7 }
    "late failure" "boom" rfl rfl rfl

theorem date_lt_false_iff_le (s e : Date) : Date.lt e s = false ↔ Date.le s e = true := by
  simp only [Date.lt, Date.le, Bool.or_eq_false_iff, Bool.or_eq_true, Bool.and_eq_false_iff,
    Bool.and_eq_true, decide_eq_false_iff_not, decide_eq_true_eq, beq_iff_eq,
    beq_eq_false_iff_ne, ne_eq]
  omega

/-- C6: the date/years validation accepts a (start, end, years) triple if
and only if the end date is on or after the start date and `years` equals
`max 1 (end.year - start.year)`; start 2024-03-01 with end 2026-03-01
forces years = 2, start 2024-01-01 with end 2024-06-01 forces years = 1,
and an end date before the start date is always rejected. -/
theorem contract_payload_validation (s e : Date) (y : Int) :
    (validDatesYears s e y = true ↔
      (Date.le s e = true ∧ y = max 1 (e.year - s.year))) ∧
    (validDatesYears s e y && Date.lt e s) = false ∧
    (∀ y2 : Int, validDatesYears ⟨2024, 3, 1⟩ ⟨2026, 3, 1⟩ y2 = true ↔ y2 = 2) ∧
    (∀ y2 : Int, validDatesYears ⟨2024, 1, 1⟩ ⟨2024, 6, 1⟩ y2 = true ↔ y2 = 1) := by
  refine ⟨?_, ?_, ?_, ?_⟩
  · unfold validDatesYears
    rcases hlt : Date.lt e s with _ | _
    · rw [date_lt_false_iff_le] at hlt
      simp [hlt]
    · have : ¬ Date.le s e = true := by
        intro hle
        have := (date_lt_false_iff_le s e).mpr hle
        rw [this] at hlt
        cases hlt
      simp [this]
  · unfold validDatesYears
    rcases hlt : Date.lt e s with _ | _ <;> simp
  · intro y2
    unfold validDatesYears
    norm_num [Date.lt]
  · intro y2
    unfold validDatesYears
    norm_num [Date.lt]

/-- C10: deleting a Contract whose identifier is absent from the store is a
no-op that raises nothing: the unit of work returns early, the committed
store is unchanged, and the route reports success. -/
theorem delete_missing_contract_noop (db : DB) (cid : Nat)
    (h : ∀ c ∈ db.contracts, c.contract_id ≠ cid) :
    deleteContractWork cid db = Except.ok db ∧
    runTxn (deleteContractWork cid) db = db := by
  have hf : db.contracts.find? (fun c => c.contract_id == cid) = none := by
    rw [List.find?_eq_none]
    intro c hc
    simp [h c hc]
  constructor
  · unfold deleteContractWork
    rw [hf]
  · unfold runTxn executeInTransaction deleteContractWork
    rw [hf]

theorem delete_missing_contract_noop_witness :
    deleteContractWork 42 sampleDB = Except.ok sampleDB ∧
    runTxn (deleteContractWork 42) sampleDB = sampleDB :=
  delete_missing_contract_noop sampleDB 42 (by decide)

theorem allocScan_isLeast (l : List Nat) (c : Nat)
    (hs : l.Sorted (· ≤ ·)) (hn : l.Nodup) (hge : ∀ x ∈ l, c ≤ x) :
    c ≤ allocScan l c ∧ allocScan l c ∉ l ∧
      ∀ k, c ≤ k → k ∉ l → allocScan l c ≤ k := by
  induction l generalizing c with
  | nil => exact ⟨Nat.le_refl c, by simp, fun k hk _ => hk⟩
  | cons pid rest ih =>
    have hpid : c ≤ pid := hge pid (List.mem_cons_self _ _)
    have hrest : ∀ x ∈ rest, pid < x := by
      intro x hx
      have h1 : pid ≤ x := List.rel_of_sorted_cons hs x hx
      have h2 : pid ≠ x := by
        intro heq
        exact (List.nodup_cons.mp hn).1 (heq ▸ hx)
      exact Nat.lt_of_le_of_ne h1 h2
    by_cases hpc : pid = c
    · subst hpc
      have heq : allocScan (pid :: rest) pid = allocScan rest (pid + 1) := by
        simp [allocScan]
      obtain ⟨ih1, ih2, ih3⟩ :=
        ih (pid + 1) hs.of_cons (List.nodup_cons.mp hn).2 (fun x hx => hrest x hx)
      rw [heq]
      refine ⟨Nat.le_trans (Nat.le_succ pid) ih1, ?_, ?_⟩
      · intro hmem
        rcases List.mem_cons.mp hmem with h | h
        · omega
        · exact ih2 h
      · intro k hk hkmem
        have hk1 : pid + 1 ≤ k := by
          have : k ≠ pid := fun h => hkmem (h ▸ List.mem_cons_self _ _)
          omega
        exact ih3 k hk1 (fun h => hkmem (List.mem_cons_of_mem _ h))
    · have hgt : pid > c := Nat.lt_of_le_of_ne hpid (fun h => hpc h.symm)
      have heq : allocScan (pid :: rest) c = c := by
        simp [allocScan, hpc, hgt]
      rw [heq]
      refine ⟨Nat.le_refl c, ?_, fun k hk _ => hk⟩
      intro hmem
      rcases List.mem_cons.mp hmem with h | h
      · omega
      · exact Nat.lt_irrefl c (Nat.lt_trans hgt (hrest c h))

/-- C2: given duplicate-free positive Person identifiers, the allocator used
inside contract creation (a scan over the ascending-sorted identifiers
starting from candidate 1) yields the smallest positive integer not already
in use: the result is positive, unused, and lower-or-equal to every other
unused positive integer. -/
theorem person_id_allocation (db : DB)
    (hn : (db.people.map Person.person_id).Nodup)
    (hpos : ∀ p ∈ db.people, 1 ≤ p.person_id) :
    1 ≤ nextFreePersonId db ∧
    (∀ p ∈ db.people, p.person_id ≠ nextFreePersonId db) ∧
    ∀ k, 1 ≤ k → (∀ p ∈ db.people, p.person_id ≠ k) → nextFreePersonId db ≤ k := by
  have hperm := List.perm_insertionSort (· ≤ ·) (db.people.map Person.person_id)
  have hmem : ∀ x, x ∈ sortedPersonIds db ↔ x ∈ db.people.map Person.person_id :=
    fun x => hperm.mem_iff
  have hs : (sortedPersonIds db).Sorted (· ≤ ·) :=
    List.sorted_insertionSort (· ≤ ·) (db.people.map Person.person_id)
  have hn2 : (sortedPersonIds db).Nodup := hperm.nodup_iff.mpr hn
  have hge : ∀ x ∈ sortedPersonIds db, 1 ≤ x := by
    intro x hx
    rcases List.mem_map.mp ((hmem x).mp hx) with ⟨p, hp, rfl⟩
    exact hpos p hp
  obtain ⟨h1, h2, h3⟩ := allocScan_isLeast (sortedPersonIds db) 1 hs hn2 hge
  refine ⟨h1, ?_, ?_⟩
  · intro p hp heq
    exact h2 ((hmem _).mpr (List.mem_map.mpr ⟨p, hp, heq⟩))
  · intro k hk hkfree
    refine h3 k hk ?_
    intro hkmem
    rcases List.mem_map.mp ((hmem k).mp hkmem) with ⟨p, hp, hpk⟩
    exact hkfree p hp hpk

theorem deleteOrphanPeople_eq_filter (cs : List Contract) (pids : List Nat)
    (people : List Person) :
    deleteOrphanPeople cs pids people =
      people.filter (fun p =>
        !(pids.contains p.person_id &&
          ((cs.filter (fun c => c.person_id == p.person_id)).length == 0))) := by
  induction pids generalizing people with
  | nil =>
    simp only [deleteOrphanPeople, List.foldl_nil, List.contains_nil, Bool.false_and,
      Bool.not_false, List.filter_true]
  | cons pid rest ih =>
    have hstep : deleteOrphanPeople cs (pid :: rest) people =
        deleteOrphanPeople cs rest
          (if (cs.filter (fun c => c.person_id == pid)).length = 0 then
            people.filter (fun p => !(p.person_id == pid))
          else people) := rfl
    rw [hstep, ih]
    by_cases h : (cs.filter (fun c => c.person_id == pid)).length = 0
    · rw [if_pos h, List.filter_filter]
      apply List.filter_congr
      intro p _
      rcases hxp : p.person_id == pid with _ | _
      · simp only [List.contains_cons, hxp, Bool.false_or, Bool.not_false, Bool.and_true]
      · have hx : p.person_id = pid := by
          simpa using hxp
        have hB : ((cs.filter (fun c => c.person_id == p.person_id)).length == 0) = true := by
          rw [hx]
          simpa using h
        simp only [List.contains_cons, hxp, hB, Bool.not_true, Bool.and_false, Bool.true_or,
          Bool.true_and]
    · rw [if_neg h]
      apply List.filter_congr
      intro p _
      rcases hxp : p.person_id == pid with _ | _
      · simp only [List.contains_cons, hxp, Bool.false_or]
      · have hx : p.person_id = pid := by
          simpa using hxp
        have hB : ((cs.filter (fun c => c.person_id == p.person_id)).length == 0) = false := by
          rw [hx]
          simpa using h
        simp only [List.contains_cons, hxp, hB, Bool.and_false, Bool.not_false, Bool.true_or]

theorem noOrphansB_iff (db : DB) :
    noOrphansB db = true ↔
      ∀ p ∈ db.people, ∃ c ∈ db.contracts, c.person_id = p.person_id := by
  simp [noOrphansB, List.all_eq_true, List.any_eq_true]

theorem deleteUnit_people_eq (db : DB) (uid : Nat) :
    (runTxn (deleteUnitWork uid) db).people =
      db.people.filter (fun p =>
        !((affectedPersonIdsByUnit db uid).contains p.person_id &&
          (((db.contracts.filter (fun c => !(c.unit_id == uid))).filter
            (fun c => c.person_id == p.person_id)).length == 0))) := by
  show deleteOrphanPeople (db.contracts.filter (fun c => !(c.unit_id == uid)))
      (affectedPersonIdsByUnit db uid) db.people = _
  rw [deleteOrphanPeople_eq_filter]

theorem deletePosition_people_eq (db : DB) (posid : Nat) :
    (runTxn (deletePositionWork posid) db).people =
      db.people.filter (fun p =>
        !((affectedPersonIdsByPosition db posid).contains p.person_id &&
          (((db.contracts.filter (fun c => !(c.position_id == posid))).filter
            (fun c => c.person_id == p.person_id)).length == 0))) := by
  show deleteOrphanPeople (db.contracts.filter (fun c => !(c.position_id == posid)))
      (affectedPersonIdsByPosition db posid) db.people = _
  rw [deleteOrphanPeople_eq_filter]

theorem filter_key_eq_singleton {cid : Nat} :
    ∀ {l : List Contract}, (l.map Contract.contract_id).Nodup →
      ∀ {row : Contract}, l.find? (fun c => c.contract_id == cid) = some row →
        l.filter (fun c => c.contract_id == cid) = [row]
  | [], _, row, hf => by simp at hf
  | a :: l, hnd, row, hf => by
    rcases ha : a.contract_id == cid with _ | _
    · rw [List.find?_cons_of_neg _ (by simp [ha])] at hf
      rw [List.filter_cons_of_neg (by simp [ha])]
      exact filter_key_eq_singleton (by simpa using (List.nodup_cons.mp (by simpa using hnd)).2) hf
    · rw [List.find?_cons_of_pos _ (by simp [ha])] at hf
      cases hf
      rw [List.filter_cons_of_pos (by simp [ha])]
      have hnotin : a.contract_id ∉ l.map Contract.contract_id :=
        (List.nodup_cons.mp (by simpa using hnd)).1
      have : l.filter (fun c => c.contract_id == cid) = [] := by
        rw [List.filter_eq_nil_iff]
        intro c hc hcc
        exact hnotin (List.mem_map.mpr ⟨c, hc, by
          have h1 : c.contract_id = cid := by simpa using hcc
          have h2 : a.contract_id = cid := by simpa using ha
          rw [h1, h2]⟩)
      rw [this]

theorem deleteContract_people_eq (db : DB) (cid : Nat)
    (hnd : (db.contracts.map Contract.contract_id).Nodup) :
    (runTxn (deleteContractWork cid) db).people =
      db.people.filter (fun p =>
        !(((db.contracts.filter (fun c => c.contract_id == cid)).map
            Contract.person_id).contains p.person_id &&
          (((db.contracts.filter (fun c => !(c.contract_id == cid))).filter
            (fun c => c.person_id == p.person_id)).length == 0))) := by
  rcases hf : db.contracts.find? (fun c => c.contract_id == cid) with _ | row
  · have hemp : db.contracts.filter (fun c => c.contract_id == cid) = [] := by
      rw [List.filter_eq_nil_iff]
      intro c hc
      have := List.find?_eq_none.mp hf c hc
      simpa using this
    have hres : (runTxn (deleteContractWork cid) db).people = db.people := by
      unfold runTxn executeInTransaction deleteContractWork
      rw [hf]
    rw [hres, hemp]
    simp
  · have hsing : db.contracts.filter (fun c => c.contract_id == cid) = [row] :=
      filter_key_eq_singleton hnd hf
    have hres : (runTxn (deleteContractWork cid) db).people =
        (if ((db.contracts.filter (fun c => !(c.contract_id == cid))).filter
              (fun c => c.person_id == row.person_id)).length = 0 then
          db.people.filter (fun p => !(p.person_id == row.person_id))
        else db.people) := by
      unfold runTxn executeInTransaction deleteContractWork
      rw [hf]
    rw [hres, hsing]
    by_cases hrem : ((db.contracts.filter (fun c => !(c.contract_id == cid))).filter
        (fun c => c.person_id == row.person_id)).length = 0
    · rw [if_pos hrem]
      apply List.filter_congr
      intro p _
      rcases hxp : p.person_id == row.person_id with _ | _
      · simp only [hxp, List.map_cons, List.map_nil, List.contains_cons, List.contains_nil,
          Bool.or_false, Bool.false_and, Bool.not_false]
      · have hx : p.person_id = row.person_id := by simpa using hxp
        have hB : (((db.contracts.filter (fun c => !(c.contract_id == cid))).filter
            (fun c => c.person_id == p.person_id)).length == 0) = true := by
          rw [hx]
          simpa using hrem
        simp only [hxp, hB, List.map_cons, List.map_nil, List.contains_cons, Bool.true_or,
          Bool.true_and, Bool.not_true]
    · rw [if_neg hrem]
      have : ∀ p ∈ db.people,
          (!(([row].map Contract.person_id).contains p.person_id &&
            (((db.contracts.filter (fun c => !(c.contract_id == cid))).filter
              (fun c => c.person_id == p.person_id)).length == 0))) = true := by
        intro p _
        rcases hxp : p.person_id == row.person_id with _ | _
        · simp only [hxp, List.map_cons, List.map_nil, List.contains_cons, List.contains_nil,
            Bool.or_false, Bool.false_and, Bool.not_false]
        · have hx : p.person_id = row.person_id := by simpa using hxp
          have hB : (((db.contracts.filter (fun c => !(c.contract_id == cid))).filter
              (fun c => c.person_id == p.person_id)).length == 0) = false := by
            rw [hx]
            simpa using hrem
          simp only [hxp, hB, List.map_cons, List.map_nil, List.contains_cons, Bool.true_or,
            Bool.and_false, Bool.not_false]
      rw [List.filter_congr this, List.filter_true]

/-- C4: deleting a Unit removes exactly the Contracts of that unit, then the
affected People (those referenced by the removed Contracts) whose Contract
count against the post-deletion contracts table is zero, then the unit's
Positions, then the Unit row itself; every Person, Contract, Position and
Unit unrelated to the deleted Unit survives unchanged (the filters keep
all other rows, in order). -/
theorem delete_unit_cascade (db : DB) (uid : Nat) :
    (runTxn (deleteUnitWork uid) db).contracts =
      db.contracts.filter (fun c => !(c.unit_id == uid)) ∧
    (runTxn (deleteUnitWork uid) db).positions =
      db.positions.filter (fun p => !(p.unit_id == uid)) ∧
    (runTxn (deleteUnitWork uid) db).units =
      db.units.filter (fun u => !(u.unit_id == uid)) ∧
    (runTxn (deleteUnitWork uid) db).people =
      db.people.filter (fun p =>
        !((affectedPersonIdsByUnit db uid).contains p.person_id &&
          (((db.contracts.filter (fun c => !(c.unit_id == uid))).filter
            (fun c => c.person_id == p.person_id)).length == 0))) ∧
    (runTxn (deleteUnitWork uid) db).next_contract_id = db.next_contract_id := by
  refine ⟨rfl, rfl, rfl, ?_, rfl⟩
  show deleteOrphanPeople (db.contracts.filter (fun c => !(c.unit_id == uid)))
      (affectedPersonIdsByUnit db uid) db.people = _
  rw [deleteOrphanPeople_eq_filter]

theorem orphan_cleanup_preserves (cs0 : List Contract) (keep : Contract → Bool)
    (pids : List Nat) (people : List Person)
    (hpids : ∀ c ∈ cs0, keep c = false → c.person_id ∈ pids)
    (h : ∀ p ∈ people, ∃ c ∈ cs0, c.person_id = p.person_id) :
    ∀ p ∈ deleteOrphanPeople (cs0.filter keep) pids people,
      ∃ c ∈ cs0.filter keep, c.person_id = p.person_id := by
  intro p hp
  rw [deleteOrphanPeople_eq_filter] at hp
  obtain ⟨hpm, hpred⟩ := List.mem_filter.mp hp
  by_cases hcnt : ((cs0.filter keep).filter (fun c => c.person_id == p.person_id)).length = 0
  · exfalso
    have hB : (((cs0.filter keep).filter
        (fun c => c.person_id == p.person_id)).length == 0) = true := by
      simpa using hcnt
    rw [hB, Bool.and_true] at hpred
    obtain ⟨c, hc, hcp⟩ := h p hpm
    rcases hk : keep c with _ | _
    · have hmem : p.person_id ∈ pids := by
        rw [← hcp]
        exact hpids c hc hk
      have hcontains : pids.contains p.person_id = true := by
        simpa using hmem
      rw [hcontains] at hpred
      simp at hpred
    · have hcmem : c ∈ (cs0.filter keep).filter (fun c2 => c2.person_id == p.person_id) :=
        List.mem_filter.mpr ⟨List.mem_filter.mpr ⟨hc, hk⟩, by simp [hcp]⟩
      have := List.length_pos.mpr (List.ne_nil_of_mem hcmem)
      omega
  · have hne : (cs0.filter keep).filter (fun c => c.person_id == p.person_id) ≠ [] := by
      intro hnil
      rw [hnil] at hcnt
      simp at hcnt
    obtain ⟨c2, hc2⟩ := List.exists_mem_of_ne_nil _ hne
    obtain ⟨hc2a, hc2b⟩ := List.mem_filter.mp hc2
    exact ⟨c2, hc2a, by simpa using hc2b⟩

/-- C5: each of the three delete cascades removes exactly the affected
People whose remaining Contract count is zero (the people equations), and
consequently, when no Person was orphaned before the operation, no orphaned
Person remains after a committed delete of a Contract, Unit or Position. -/
theorem delete_cascades_no_orphans (db : DB) (cid uid posid : Nat)
    (hnd : (db.contracts.map Contract.contract_id).Nodup)
    (h : noOrphansB db = true) :
    noOrphansB (runTxn (deleteContractWork cid) db) = true ∧
    noOrphansB (runTxn (deleteUnitWork uid) db) = true ∧
    noOrphansB (runTxn (deletePositionWork posid) db) = true ∧
    (runTxn (deleteUnitWork uid) db).people =
      db.people.filter (fun p =>
        !((affectedPersonIdsByUnit db uid).contains p.person_id &&
          (((db.contracts.filter (fun c => !(c.unit_id == uid))).filter
            (fun c => c.person_id == p.person_id)).length == 0))) ∧
    (runTxn (deletePositionWork posid) db).people =
      db.people.filter (fun p =>
        !((affectedPersonIdsByPosition db posid).contains p.person_id &&
          (((db.contracts.filter (fun c => !(c.position_id == posid))).filter
            (fun c => c.person_id == p.person_id)).length == 0))) ∧
    (runTxn (deleteContractWork cid) db).people =
      db.people.filter (fun p =>
        !(((db.contracts.filter (fun c => c.contract_id == cid)).map
            Contract.person_id).contains p.person_id &&
          (((db.contracts.filter (fun c => !(c.contract_id == cid))).filter
            (fun c => c.person_id == p.person_id)).length == 0))) := by
  have hprop := (noOrphansB_iff db).mp h
  refine ⟨?_, ?_, ?_, deleteUnit_people_eq db uid, deletePosition_people_eq db posid,
    deleteContract_people_eq db cid hnd⟩
  · rw [noOrphansB_iff]
    rcases hf : db.contracts.find? (fun c => c.contract_id == cid) with _ | row
    · have hid : runTxn (deleteContractWork cid) db = db := by
        unfold runTxn executeInTransaction deleteContractWork
        rw [hf]
      rw [hid]
      exact hprop
    · have hrow : row ∈ db.contracts := List.mem_of_find?_eq_some hf
      have hrowid : row.contract_id = cid := by
        simpa using List.find?_some hf
      have hcs : (runTxn (deleteContractWork cid) db).contracts =
          db.contracts.filter (fun c => !(c.contract_id == cid)) := by
        unfold runTxn executeInTransaction deleteContractWork
        rw [hf]
      have hsurvives : ∀ c ∈ db.contracts, c.person_id ≠ row.person_id →
          c ∈ db.contracts.filter (fun c2 => !(c2.contract_id == cid)) := by
        intro c hc hcne
        refine List.mem_filter.mpr ⟨hc, ?_⟩
        rcases hcc : c.contract_id == cid with _ | _
        · rfl
        · exfalso
          have hceq : c.contract_id = cid := by simpa using hcc
          have : c = row := List.inj_on_of_nodup_map hnd hc hrow (by rw [hceq, hrowid])
          exact hcne (by rw [this])
      rw [hcs]
      intro p hp
      have hpe : (runTxn (deleteContractWork cid) db).people =
          (if ((db.contracts.filter (fun c => !(c.contract_id == cid))).filter
                (fun c => c.person_id == row.person_id)).length = 0 then
            db.people.filter (fun q => !(q.person_id == row.person_id))
          else db.people) := by
        unfold runTxn executeInTransaction deleteContractWork
        rw [hf]
      rw [hpe] at hp
      by_cases hrem : ((db.contracts.filter (fun c => !(c.contract_id == cid))).filter
          (fun c => c.person_id == row.person_id)).length = 0
      · rw [if_pos hrem] at hp
        obtain ⟨hpm, hpne⟩ := List.mem_filter.mp hp
        have hpne2 : p.person_id ≠ row.person_id := by
          simpa using hpne
        obtain ⟨c, hc, hcp⟩ := hprop p hpm
        refine ⟨c, hsurvives c hc (by rw [hcp]; exact hpne2), hcp⟩
      · rw [if_neg hrem] at hp
        by_cases hpr : p.person_id = row.person_id
        · have hne : (db.contracts.filter (fun c => !(c.contract_id == cid))).filter
              (fun c => c.person_id == row.person_id) ≠ [] := by
            intro hnil
            rw [hnil] at hrem
            simp at hrem
          obtain ⟨c2, hc2⟩ := List.exists_mem_of_ne_nil _ hne
          obtain ⟨hc2a, hc2b⟩ := List.mem_filter.mp hc2
          refine ⟨c2, hc2a, ?_⟩
          rw [hpr]
          simpa using hc2b
        · obtain ⟨c, hc, hcp⟩ := hprop p hp
          refine ⟨c, hsurvives c hc (by rw [hcp]; exact hpr), hcp⟩
  · rw [noOrphansB_iff]
    have hpids : ∀ c ∈ db.contracts, (!(c.unit_id == uid)) = false →
        c.person_id ∈ affectedPersonIdsByUnit db uid := by
      intro c hc hk
      have hcu : (c.unit_id == uid) = true := by
        rcases h2 : c.unit_id == uid with _ | _
        · rw [h2] at hk
          cases hk
        · rfl
      unfold affectedPersonIdsByUnit
      rw [List.mem_dedup]
      exact List.mem_map.mpr ⟨c, List.mem_filter.mpr ⟨hc, hcu⟩, rfl⟩
    exact orphan_cleanup_preserves db.contracts (fun c => !(c.unit_id == uid))
      (affectedPersonIdsByUnit db uid) db.people hpids hprop
  · rw [noOrphansB_iff]
    have hpids : ∀ c ∈ db.contracts, (!(c.position_id == posid)) = false →
        c.person_id ∈ affectedPersonIdsByPosition db posid := by
      intro c hc hk
      have hcu : (c.position_id == posid) = true := by
        rcases h2 : c.position_id == posid with _ | _
        · rw [h2] at hk
          cases hk
        · rfl
      unfold affectedPersonIdsByPosition
      rw [List.mem_dedup]
      exact List.mem_map.mpr ⟨c, List.mem_filter.mpr ⟨hc, hcu⟩, rfl⟩
    exact orphan_cleanup_preserves db.contracts (fun c => !(c.position_id == posid))
      (affectedPersonIdsByPosition db posid) db.people hpids hprop

theorem delete_cascades_no_orphans_witness :
    noOrphansB (runTxn (deleteContractWork 1) sampleDB) = true ∧
    noOrphansB (runTxn (deleteUnitWork 1) sampleDB) = true ∧
    noOrphansB (runTxn (deletePositionWork 1) sampleDB) = true ∧
    (runTxn (deleteUnitWork 1) sampleDB).people =
      sampleDB.people.filter (fun p =>
        !((affectedPersonIdsByUnit sampleDB 1).contains p.person_id &&
          (((sampleDB.contracts.filter (fun c => !(c.unit_id == 1))).filter
            (fun c => c.person_id == p.person_id)).length == 0))) ∧
    (runTxn (deletePositionWork 1) sampleDB).people =
      sampleDB.people.filter (fun p =>
        !((affectedPersonIdsByPosition sampleDB 1).contains p.person_id &&
          (((sampleDB.contracts.filter (fun c => !(c.position_id == 1))).filter
            (fun c => c.person_id == p.person_id)).length == 0))) ∧
    (runTxn (deleteContractWork 1) sampleDB).people =
      sampleDB.people.filter (fun p =>
        !(((sampleDB.contracts.filter (fun c => c.contract_id == 1)).map
            Contract.person_id).contains p.person_id &&
          (((sampleDB.contracts.filter (fun c => !(c.contract_id == 1))).filter
            (fun c => c.person_id == p.person_id)).length == 0))) :=
  delete_cascades_no_orphans sampleDB 1 1 1 (by decide) (by decide)

theorem unitInvariantB_iff (db : DB) :
    unitInvariantB db = true ↔
      ∀ c ∈ db.contracts, ∀ p,
        db.positions.find? (fun q => q.position_id == c.position_id) = some p →
        p.unit_id = c.unit_id := by
  unfold unitInvariantB
  rw [List.all_eq_true]
  constructor
  · intro hall c hc p hp
    have h2 := hall c hc
    rw [hp] at h2
    simpa using h2
  · intro hin c hc
    show (match db.positions.find? (fun q => q.position_id == c.position_id) with
      | some p => p.unit_id == c.unit_id
      | none => true) = true
    rcases hp : db.positions.find? (fun q => q.position_id == c.position_id) with _ | p
    · rw [hp]
    · rw [hp]
      simpa using hin c hc p hp

theorem positionUnitMatches_iff (db : DB) (posid uid : Nat) :
    positionUnitMatches db posid uid = true ↔
      ∃ row, db.positions.find? (fun p => p.position_id == posid) = some row ∧
        row.unit_id = uid := by
  rcases hf : db.positions.find? (fun p => p.position_id == posid) with _ | row
  · unfold positionUnitMatches
    rw [hf]
    simp
  · unfold positionUnitMatches
    rw [hf]
    simp

theorem createContractWork_spec (pn : String) (posid uid : Nat) (s e : Date) (y : Int)
    (sal cap : ℚ) (db : DB) :
    createContractWork pn posid uid s e y sal cap db =
      (if positionUnitMatches db posid uid then
        Except.ok { db with
          people := db.people ++ [⟨nextFreePersonId db, pn⟩],
          contracts := db.contracts ++
            [⟨db.next_contract_id, nextFreePersonId db, posid, uid, s, e, y, sal, cap⟩],
          next_contract_id := db.next_contract_id + 1 }
      else Except.error "Selected position does not belong to selected unit.") := rfl

/-- C1: after any committed contract create, contract update or
position-unit reassignment, every Contract whose referenced Position exists
carries that Position's stored unit; contract create and update raise the
business-rule error when the submitted unit differs from the Position's
stored unit, and reassigning a Position rewrites the denormalized unit of
every Contract referencing it in the same unit of work. -/
theorem contract_position_unit_consistency (db : DB)
    (hinv : unitInvariantB db = true)
    (pn code desc : String) (posid uid cid pid2 : Nat)
    (s e : Date) (y : Int) (sal cap : ℚ) :
    unitInvariantB (runTxn (createContractWork pn posid uid s e y sal cap) db) = true ∧
    unitInvariantB (runTxn (editContractWork cid pid2 posid uid s e y sal cap) db) = true ∧
    unitInvariantB (runTxn (editPositionWork posid code desc uid) db) = true ∧
    ((runTxn (editPositionWork posid code desc uid) db).contracts.all
      (fun c => !(c.position_id == posid) || (c.unit_id == uid))) = true ∧
    (positionUnitMatches db posid uid = false →
      createContractWork pn posid uid s e y sal cap db =
        Except.error "Selected position does not belong to selected unit." ∧
      editContractWork cid pid2 posid uid s e y sal cap db =
        Except.error "Selected position does not belong to selected unit.") := by
  have hprop := (unitInvariantB_iff db).mp hinv
  refine ⟨?_, ?_, ?_, ?_, ?_⟩
  · rcases hm : positionUnitMatches db posid uid with _ | _
    · have hres : runTxn (createContractWork pn posid uid s e y sal cap) db = db := by
        unfold runTxn executeInTransaction
        rw [createContractWork_spec, hm]
        simp
      rw [hres]
      exact hinv
    · obtain ⟨row, hrow, hrowu⟩ := (positionUnitMatches_iff db posid uid).mp hm
      have hres : runTxn (createContractWork pn posid uid s e y sal cap) db =
          { db with
            people := db.people ++ [⟨nextFreePersonId db, pn⟩],
            contracts := db.contracts ++
              [⟨db.next_contract_id, nextFreePersonId db, posid, uid, s, e, y, sal, cap⟩],
            next_contract_id := db.next_contract_id + 1 } := by
        unfold runTxn executeInTransaction
        rw [createContractWork_spec, hm]
        simp
      rw [hres, unitInvariantB_iff]
      intro c hc p hp
      rcases List.mem_append.mp hc with hold | hnew
      · exact hprop c hold p hp
      · have hcnew : c = ⟨db.next_contract_id, nextFreePersonId db, posid, uid,
            s, e, y, sal, cap⟩ := by
          simpa using hnew
        subst hcnew
        have hp2 : db.positions.find? (fun q => q.position_id == posid) = some p := hp
        rw [hrow] at hp2
        have hpr : row = p := by simpa using hp2
        show p.unit_id = uid
        rw [← hpr, hrowu]
  · rcases hm : positionUnitMatches db posid uid with _ | _
    · have hres : runTxn (editContractWork cid pid2 posid uid s e y sal cap) db = db := by
        unfold runTxn executeInTransaction editContractWork
        rw [hm]
        simp
      rw [hres]
      exact hinv
    · obtain ⟨row, hrow, hrowu⟩ := (positionUnitMatches_iff db posid uid).mp hm
      have hres : runTxn (editContractWork cid pid2 posid uid s e y sal cap) db =
          { db with contracts := db.contracts.map (fun c =>
            if c.contract_id == cid then
              ⟨c.contract_id, pid2, posid, uid, s, e, y, sal, cap⟩
            else c) } := by
        unfold runTxn executeInTransaction editContractWork
        rw [hm]
        simp
      rw [hres, unitInvariantB_iff]
      intro c hc p hp
      obtain ⟨c0, hc0, hceq⟩ := List.mem_map.mp hc
      rcases hcc : c0.contract_id == cid with _ | _
      · have hg : c = c0 := by
          rw [← hceq]
          simp [hcc]
        rw [hg] at hp ⊢
        exact hprop c0 hc0 p hp
      · have hg : c = ⟨c0.contract_id, pid2, posid, uid, s, e, y, sal, cap⟩ := by
          rw [← hceq]
          simp [hcc]
        rw [hg] at hp ⊢
        have hp2 : db.positions.find? (fun q => q.position_id == posid) = some p := hp
        rw [hrow] at hp2
        have hpr : row = p := by simpa using hp2
        show p.unit_id = uid
        rw [← hpr, hrowu]
  · have hres : runTxn (editPositionWork posid code desc uid) db =
        { db with
          positions := db.positions.map (fun p =>
            if p.position_id == posid then ⟨p.position_id, code, desc, uid⟩ else p),
          contracts := db.contracts.map (fun c =>
            if c.position_id == posid then { c with unit_id := uid } else c) } := rfl
    rw [hres, unitInvariantB_iff]
    intro c hc p hp
    obtain ⟨c0, hc0, hceq⟩ := List.mem_map.mp hc
    have hfid : ∀ q : Position,
        ((fun q2 : Position => if q2.position_id == posid then
          (⟨q2.position_id, code, desc, uid⟩ : Position) else q2) q).position_id =
        q.position_id := by
      intro q
      rcases hq : q.position_id == posid with _ | _ <;> simp [hq]
    rcases hc0p : c0.position_id == posid with _ | _
    · have hg : c = c0 := by
        rw [← hceq]
        simp [hc0p]
      rw [hg] at hp ⊢
      have hp2 : (db.positions.map (fun q2 : Position =>
          if q2.position_id == posid then ⟨q2.position_id, code, desc, uid⟩ else q2)).find?
          (fun q => q.position_id == c0.position_id) = some p := hp
      rw [List.find?_map] at hp2
      have hcomp : ((fun q : Position => q.position_id == c0.position_id) ∘
          (fun q2 : Position =>
            if q2.position_id == posid then ⟨q2.position_id, code, desc, uid⟩ else q2)) =
          (fun q : Position => q.position_id == c0.position_id) := by
        funext q
        simp only [Function.comp_apply, hfid q]
      rw [hcomp] at hp2
      rcases hfind : db.positions.find? (fun q => q.position_id == c0.position_id)
        with _ | q0
      · rw [hfind] at hp2
        simp at hp2
      · rw [hfind] at hp2
        have hq0c := List.find?_some hfind
        have hq0p : (q0.position_id == posid) = false := by
          have h1 : q0.position_id = c0.position_id := by simpa using hq0c
          rw [h1]
          exact hc0p
        have hne : q0.position_id ≠ posid := by simpa using hq0p
        have hpq : p = q0 := by
          simp [hne] at hp2
          exact hp2.symm
        rw [hpq]
        exact hprop c0 hc0 q0 hfind
    · have hg : c = { c0 with unit_id := uid } := by
        rw [← hceq]
        simp [hc0p]
      subst hg
      have hp2 : (db.positions.map (fun q2 : Position =>
          if q2.position_id == posid then ⟨q2.position_id, code, desc, uid⟩ else q2)).find?
          (fun q => q.position_id == c0.position_id) = some p := hp
      rw [List.find?_map] at hp2
      have hcomp : ((fun q : Position => q.position_id == c0.position_id) ∘
          (fun q2 : Position =>
            if q2.position_id == posid then ⟨q2.position_id, code, desc, uid⟩ else q2)) =
          (fun q : Position => q.position_id == c0.position_id) := by
        funext q
        simp only [Function.comp_apply, hfid q]
      rw [hcomp] at hp2
      rcases hfind : db.positions.find? (fun q => q.position_id == c0.position_id)
        with _ | q0
      · rw [hfind] at hp2
        simp at hp2
      · rw [hfind] at hp2
        have hq0c := List.find?_some hfind
        have hq0p : (q0.position_id == posid) = true := by
          have h1 : q0.position_id = c0.position_id := by simpa using hq0c
          have h2 : c0.position_id = posid := by simpa using hc0p
          rw [h1, h2]
          simp
        have heq2 : q0.position_id = posid := by simpa using hq0p
        have hpq : p = ⟨posid, code, desc, uid⟩ := by
          simp [heq2] at hp2
          exact hp2.symm
        subst hpq
        rfl
  · have hres : (runTxn (editPositionWork posid code desc uid) db).contracts =
        db.contracts.map (fun c =>
          if c.position_id == posid then { c with unit_id := uid } else c) := rfl
    rw [hres, List.all_eq_true]
    intro c hc
    obtain ⟨c0, hc0, hceq⟩ := List.mem_map.mp hc
    rcases hc0p : c0.position_id == posid with _ | _
    · have hg : c = c0 := by
        rw [← hceq]
        simp [hc0p]
      rw [hg]
      simp [hc0p]
    · have hg : c = { c0 with unit_id := uid } := by
        rw [← hceq]
        simp [hc0p]
      subst hg
      simp [hc0p]
  · intro hm
    constructor
    · rw [createContractWork_spec, hm]
      simp
    · unfold editContractWork
      rw [hm]
      simp

theorem contract_position_unit_consistency_witness :
    unitInvariantB (runTxn (createContractWork "Pat Kim" 1 2 ⟨2025, 1, 1⟩ ⟨2026, 1, 1⟩ 1 4 4)
      sampleDB) = true ∧
    unitInvariantB (runTxn (editContractWork 1 1 1 2 ⟨2025, 1, 1⟩ ⟨2026, 1, 1⟩ 1 4 4)
      sampleDB) = true ∧
    unitInvariantB (runTxn (editPositionWork 1 "QB" "Quarterback" 2) sampleDB) = true ∧
    ((runTxn (editPositionWork 1 "QB" "Quarterback" 2) sampleDB).contracts.all
      (fun c => !(c.position_id == 1) || (c.unit_id == 2))) = true ∧
    createContractWork "Pat Kim" 1 2 ⟨2025, 1, 1⟩ ⟨2026, 1, 1⟩ 1 4 4 sampleDB =
      Except.error "Selected position does not belong to selected unit." ∧
    editContractWork 1 1 1 2 ⟨2025, 1, 1⟩ ⟨2026, 1, 1⟩ 1 4 4 sampleDB =
      Except.error "Selected position does not belong to selected unit." := by
  have h := contract_position_unit_consistency sampleDB (by decide)
    "Pat Kim" "QB" "Quarterback" 1 2 1 1 ⟨2025, 1, 1⟩ ⟨2026, 1, 1⟩ 1 4 4
  exact ⟨h.1, h.2.1, h.2.2.1, h.2.2.2.1, h.2.2.2.2 (by decide)⟩

/-- C7: the dynamic WHERE clause of the report contains exactly one fixed
comparison fragment per present filter, joined by AND and empty when no
filter is present; the bound parameter list holds exactly the present
filter values in the same left-to-right order as the fragments; and the SQL
text depends only on which filters are present, never on their values. -/
theorem report_filter_builder (f g : ReportFilters)
    (hu : f.unit_id.isSome = g.unit_id.isSome)
    (hp : f.position_id.isSome = g.position_id.isSome)
    (hmin : f.min_salary.isSome = g.min_salary.isSome)
    (hmax : f.max_salary.isSome = g.max_salary.isSome) :
    (reportConditions f).1 =
      ((match f.unit_id with | some _ => ["c.unit_id = ?"] | none => []) ++
       (match f.position_id with | some _ => ["c.position_id = ?"] | none => []) ++
       (match f.min_salary with | some _ => ["c.salary_millions >= ?"] | none => []) ++
       (match f.max_salary with | some _ => ["c.salary_millions <= ?"] | none => [])) ∧
    (reportConditions f).2 =
      ((match f.unit_id with | some v => [FilterParam.intParam v] | none => []) ++
       (match f.position_id with | some v => [FilterParam.intParam v] | none => []) ++
       (match f.min_salary with | some v => [FilterParam.ratParam v] | none => []) ++
       (match f.max_salary with | some v => [FilterParam.ratParam v] | none => [])) ∧
    (reportConditions f).1 = (reportConditions g).1 ∧
    whereClause f = whereClause g ∧
    whereClause ⟨none, none, none, none⟩ = "" := by
  obtain ⟨fu, fp, fm, fx⟩ := f
  obtain ⟨gu, gp, gm, gx⟩ := g
  refine ⟨?_, ?_, ?_, ?_, rfl⟩
  · cases fu <;> cases fp <;> cases fm <;> cases fx <;> rfl
  · cases fu <;> cases fp <;> cases fm <;> cases fx <;> rfl
  · cases fu <;> cases gu <;> cases fp <;> cases gp <;> cases fm <;> cases gm <;>
      cases fx <;> cases gx <;> first | rfl | simp_all
  · cases fu <;> cases gu <;> cases fp <;> cases gp <;> cases fm <;> cases gm <;>
      cases fx <;> cases gx <;> first | rfl | simp_all

theorem report_filter_builder_witness :
    (reportConditions ⟨some 3, none, some 5, none⟩).1 =
      ["c.unit_id = ?", "c.salary_millions >= ?"] ∧
    (reportConditions ⟨some 3, none, some 5, none⟩).2 =
      [FilterParam.intParam 3, FilterParam.ratParam 5] ∧
    (reportConditions ⟨some 3, none, some 5, none⟩).1 =
      (reportConditions ⟨some 9, none, some 30, none⟩).1 ∧
    whereClause ⟨some 3, none, some 5, none⟩ = whereClause ⟨some 9, none, some 30, none⟩ ∧
    whereClause ⟨none, none, none, none⟩ = "" := by
  have h := report_filter_builder ⟨some 3, none, some 5, none⟩ ⟨some 9, none, some 30, none⟩
    rfl rfl rfl rfl
  exact ⟨h.1.trans rfl, h.2.1.trans rfl, h.2.2.1, h.2.2.2.1, h.2.2.2.2⟩

/-- C8: under referential integrity (every contract's position and unit
exist), the row-listing query and the aggregate-statistics query of the
report select exactly the same contract rows for any filter combination, the
statistics are computed over that shared row set, and an empty row set
yields count 0 with null aggregates instead of a division error. -/
theorem report_stats_same_rows (db : DB) (f : ReportFilters)
    (hpos : ∀ c ∈ db.contracts,
      db.positions.any (fun q => q.position_id == c.position_id) = true)
    (hunit : ∀ c ∈ db.contracts,
      db.units.any (fun u => u.unit_id == c.unit_id) = true) :
    listingRows db f = statsSourceRows db f ∧
    reportStats db f = computeStats (listingRows db f) ∧
    (statsSourceRows db f = [] → reportStats db f = ⟨0, none, none, none⟩) := by
  have h1 : listingRows db f = statsSourceRows db f := by
    unfold listingRows statsSourceRows
    apply List.filter_congr
    intro c hc
    rw [hpos c hc, hunit c hc, Bool.and_true, Bool.and_true]
  refine ⟨h1, ?_, ?_⟩
  · show computeStats (statsSourceRows db f) = computeStats (listingRows db f)
    rw [h1]
  · intro hz
    show computeStats (statsSourceRows db f) = _
    rw [hz]
    rfl

theorem report_stats_same_rows_witness :
    listingRows sampleDB ⟨none, none, some 100, none⟩ =
      statsSourceRows sampleDB ⟨none, none, some 100, none⟩ ∧
    reportStats sampleDB ⟨none, none, some 100, none⟩ =
      computeStats (listingRows sampleDB ⟨none, none, some 100, none⟩) ∧
    reportStats sampleDB ⟨none, none, some 100, none⟩ = ⟨0, none, none, none⟩ := by
  have h := report_stats_same_rows sampleDB ⟨none, none, some 100, none⟩
    (by decide) (by decide)
  exact ⟨h.1, h.2.1, h.2.2 rfl⟩

/-- C9 counterexample: `create_contract.work` inserts a Person row
unconditionally — it never looks the submitted name up.  Creating a
contract for the name "John Doe", already present in the sample store,
commits a second Person row with that name (and the new contract), refuting
the claim that an existing name is not duplicated. -/
theorem create_contract_duplicate_person_name :
    (sampleDB.people.filter (fun p => p.name == "John Doe")).length = 1 ∧
    ((runTxn (createContractWork "John Doe" 1 1 ⟨2025, 1, 1⟩ ⟨2026, 1, 1⟩ 1 7 7)
      sampleDB).people.filter (fun p => p.name == "John Doe")).length = 2 ∧
    (runTxn (createContractWork "John Doe" 1 1 ⟨2025, 1, 1⟩ ⟨2026, 1, 1⟩ 1 7 7)
      sampleDB).contracts.length = 3 :=
  ⟨rfl, rfl, rfl⟩

/-- C9 amended: whenever contract creation succeeds (the position/unit rule
passes), it appends a brand-new Person row carrying the freshly allocated
identifier and the submitted name — even when a Person with that name
already exists; names are never looked up or reused. -/
theorem create_contract_always_inserts_person (db : DB) (pn : String) (posid uid : Nat)
    (s e : Date) (y : Int) (sal cap : ℚ)
    (h : positionUnitMatches db posid uid = true) :
    (runTxn (createContractWork pn posid uid s e y sal cap) db).people =
      db.people ++ [⟨nextFreePersonId db, pn⟩] := by
  unfold runTxn executeInTransaction
  rw [createContractWork_spec, h]
  simp

theorem create_contract_always_inserts_person_witness :
    (runTxn (createContractWork "Ava Lee" 2 2 ⟨2025, 1, 1⟩ ⟨2026, 1, 1⟩ 1 3 3)
      sampleDB).people =
      sampleDB.people ++ [⟨nextFreePersonId sampleDB, "Ava Lee"⟩] :=
  create_contract_always_inserts_person sampleDB "Ava Lee" 2 2
    ⟨2025, 1, 1⟩ ⟨2026, 1, 1⟩ 1 3 3 (by decide)

theorem person_id_allocation_witness :
    1 ≤ nextFreePersonId sampleDB ∧
    (∀ p ∈ sampleDB.people, p.person_id ≠ nextFreePersonId sampleDB) ∧
    ∀ k, 1 ≤ k → (∀ p ∈ sampleDB.people, p.person_id ≠ k) →
      nextFreePersonId sampleDB ≤ k :=
  person_id_allocation sampleDB (by decide) (by decide)
